import Mathlib

/-!
Verification development for the portfolio AI-agent backend.

The TypeScript sources are shallowly embedded as pure Lean functions:
the relational store is an explicit record of tables, every external
effect (language-model call, e-mail, SMS) is recorded in a trace or
supplied as an explicit outcome parameter, and machine behaviour such as
`JSON.parse`, `String.prototype.trim` and `String.prototype.replace`
with the global fence-stripping regex is embedded over `List Char`.
-/

namespace Portfolio

/-! ## Characters and JS string primitives -/

/-- The backtick character (code 96). -/
def btick : Char := Char.ofNat 96

/-- Whitespace characters recognised by the JSON grammar (space, tab,
line feed, carriage return).  `String.prototype.trim` also strips some
additional Unicode whitespace; those extra characters cannot occur at
the edge of any text whose untrimmed parse succeeds, so this common set
is used for both. -/
def isWs (c : Char) : Bool := c == ' ' || c == '\t' || c == '\n' || c == '\r'

/-- Embedding of `String.prototype.trim` (on character lists). -/
def jsTrim (l : List Char) : List Char :=
  ((l.dropWhile isWs).reverse.dropWhile isWs).reverse

/-- Worker for the fence-stripping replace: `k` is the number of
characters still to drop from a match already recognised; at `k = 0`
the scan tries the alternative ```` ```json ```` first, then ```` ``` ````,
exactly as the regex alternation does, dropping the match or copying one
character. -/
def replAux : Nat → List Char → List Char
  | _, [] => []
  | Nat.succ k, _ :: rest => replAux k rest
  | 0, c :: rest =>
    if c = btick ∧ rest.take 2 = [btick, btick] then
      if (rest.drop 2).take 4 = ['j', 's', 'o', 'n'] then replAux 6 rest
      else replAux 2 rest
    else c :: replAux 0 rest

/-- Embedding of `s.replace(/```json|```/g, "")`: scan left to right; at
each position the alternative ```` ```json ```` is tried first, then
```` ``` ````; on a match the matched characters are dropped and the scan
resumes after them, otherwise one character is copied. -/
def replFences (l : List Char) : List Char := replAux 0 l

/-- Whether the list contains three consecutive backticks (a code fence)
anywhere, i.e. whether the global fence regex can match inside it. -/
def hasTriple : List Char → Bool
  | [] => false
  | c :: rest => decide (c = btick ∧ rest.take 2 = [btick, btick]) || hasTriple rest

/-! ## JSON values and `JSON.parse` -/

/-- JSON values.  Numbers keep the literal characters of the numeric
token (the claims under verification only compare parses for equality,
never compute with the numeric value, so IEEE-754 semantics is not
modelled). -/
inductive Json where
  | null : Json
  | bool : Bool → Json
  | num : String → Json
  | str : String → Json
  | arr : List Json → Json
  | obj : List (String × Json) → Json

/-- Hexadecimal digit value, for `\u` escapes. -/
def hexVal (c : Char) : Option Nat :=
  if '0' ≤ c ∧ c ≤ '9' then some (c.toNat - '0'.toNat)
  else if 'a' ≤ c ∧ c ≤ 'f' then some (c.toNat - 'a'.toNat + 10)
  else if 'A' ≤ c ∧ c ≤ 'F' then some (c.toNat - 'A'.toNat + 10)
  else none

/-- Parse the body of a JSON string after the opening quote; returns the
decoded characters and the input after the closing quote.  A `\u` escape
is decoded with `Char.ofNat`, which collapses lone-surrogate escapes to
the null character (Lean characters are Unicode scalars; no claim
involves such escapes). -/
def parseStringBody : List Char → Option (List Char × List Char)
  | [] => none
  | '"' :: rest => some ([], rest)
  | '\\' :: rest =>
    match rest with
    | [] => none
    | 'u' :: rest2 =>
      match rest2 with
      | h1 :: h2 :: h3 :: h4 :: rest6 =>
        match hexVal h1, hexVal h2, hexVal h3, hexVal h4 with
        | some a, some b, some c, some d =>
          match parseStringBody rest6 with
          | some (s, r) => some (Char.ofNat (((a * 16 + b) * 16 + c) * 16 + d) :: s, r)
          | none => none
        | _, _, _, _ => none
      | _ => none
    | e :: rest2 =>
      let esc : Option Char :=
        if e = '"' then some '"'
        else if e = '\\' then some '\\'
        else if e = '/' then some '/'
        else if e = 'b' then some (Char.ofNat 8)
        else if e = 'f' then some (Char.ofNat 12)
        else if e = 'n' then some '\n'
        else if e = 'r' then some '\r'
        else if e = 't' then some '\t'
        else none
      match esc with
      | some ec =>
        match parseStringBody rest2 with
        | some (s, r) => some (ec :: s, r)
        | none => none
      | none => none
  | c :: rest =>
    if c.toNat < 32 then none
    else
      match parseStringBody rest with
      | some (s, r) => some (c :: s, r)
      | none => none

/-- Fraction part of a JSON number (empty if the input does not start
with a dot; fails on a dot with no digits). -/
def parseFrac (l : List Char) : Option (List Char × List Char) :=
  match l with
  | '.' :: r =>
    let ds := r.takeWhile Char.isDigit
    if ds = [] then none else some ('.' :: ds, r.dropWhile Char.isDigit)
  | _ => some ([], l)

/-- Exponent part of a JSON number (empty if the input does not start
with `e`/`E`; fails on an exponent marker with no digits). -/
def parseExp (l : List Char) : Option (List Char × List Char) :=
  match l with
  | [] => some ([], [])
  | c :: r =>
    if c = 'e' ∨ c = 'E' then
      let sr : List Char × List Char :=
        match r with
        | s :: r2 => if s = '+' ∨ s = '-' then ([s], r2) else ([], r)
        | [] => ([], r)
      let ds := sr.2.takeWhile Char.isDigit
      if ds = [] then none
      else some (c :: sr.1 ++ ds, sr.2.dropWhile Char.isDigit)
    else some ([], l)

/-- Parse a JSON numeric literal, returning its characters and the rest
of the input. -/
def parseNumber (l : List Char) : Option (List Char × List Char) :=
  let nl : List Char × List Char :=
    match l with
    | '-' :: r => (['-'], r)
    | _ => ([], l)
  match nl.2 with
  | [] => none
  | c :: r =>
    if c = '0' then
      match parseFrac r with
      | none => none
      | some (f, r2) =>
        match parseExp r2 with
        | none => none
        | some (ex, r3) => some (nl.1 ++ '0' :: (f ++ ex), r3)
    else if c.isDigit then
      let ds := r.takeWhile Char.isDigit
      let r1 := r.dropWhile Char.isDigit
      match parseFrac r1 with
      | none => none
      | some (f, r2) =>
        match parseExp r2 with
        | none => none
        | some (ex, r3) => some (nl.1 ++ c :: (ds ++ (f ++ ex)), r3)
    else none

/-- Requests to the recursive JSON parser: a value, the items of an
array after `[`, or the members of an object after the opening brace. -/
inductive PIn where
  | val (l : List Char)
  | items (l : List Char)
  | members (l : List Char)

/-- Results of the recursive JSON parser. -/
inductive POut where
  | v (j : Json) (r : List Char)
  | vs (js : List Json) (r : List Char)
  | ms (m : List (String × Json)) (r : List Char)

/-- Recursive-descent JSON parser, fuel-indexed so that the recursion is
structural (every recursive call decrements the fuel; one unit of fuel
is spent per grammar production, so `2 * length + 2` units always
suffice). -/
def parseCore : Nat → PIn → Option POut
  | 0, _ => none
  | Nat.succ fuel, PIn.val l =>
    match List.dropWhile isWs l with
    | 'n' :: 'u' :: 'l' :: 'l' :: rest => some (POut.v Json.null rest)
    | 't' :: 'r' :: 'u' :: 'e' :: rest => some (POut.v (Json.bool true) rest)
    | 'f' :: 'a' :: 'l' :: 's' :: 'e' :: rest => some (POut.v (Json.bool false) rest)
    | '"' :: rest =>
      match parseStringBody rest with
      | some (s, r) => some (POut.v (Json.str (String.mk s)) r)
      | none => none
    | '[' :: rest =>
      match List.dropWhile isWs rest with
      | ']' :: r => some (POut.v (Json.arr []) r)
      | l2 =>
        match parseCore fuel (PIn.items l2) with
        | some (POut.vs js r) => some (POut.v (Json.arr js) r)
        | _ => none
    | '\x7b' :: rest =>
      match List.dropWhile isWs rest with
      | '\x7d' :: r => some (POut.v (Json.obj []) r)
      | l2 =>
        match parseCore fuel (PIn.members l2) with
        | some (POut.ms m r) => some (POut.v (Json.obj m) r)
        | _ => none
    | l1 =>
      match parseNumber l1 with
      | some (ds, r) => some (POut.v (Json.num (String.mk ds)) r)
      | none => none
  | Nat.succ fuel, PIn.items l =>
    match parseCore fuel (PIn.val l) with
    | some (POut.v j r) =>
      match List.dropWhile isWs r with
      | ',' :: r2 =>
        match parseCore fuel (PIn.items r2) with
        | some (POut.vs js r3) => some (POut.vs (j :: js) r3)
        | _ => none
      | ']' :: r2 => some (POut.vs [j] r2)
      | _ => none
    | _ => none
  | Nat.succ fuel, PIn.members l =>
    match List.dropWhile isWs l with
    | '"' :: rest =>
      match parseStringBody rest with
      | some (k, r) =>
        match List.dropWhile isWs r with
        | ':' :: r2 =>
          match parseCore fuel (PIn.val r2) with
          | some (POut.v j r3) =>
            match List.dropWhile isWs r3 with
            | ',' :: r4 =>
              match parseCore fuel (PIn.members r4) with
              | some (POut.ms m r5) => some (POut.ms ((String.mk k, j) :: m) r5)
              | _ => none
            | '\x7d' :: r4 => some (POut.ms [(String.mk k, j)] r4)
            | _ => none
          | _ => none
        | _ => none
      | none => none
    | _ => none

/-- Embedding of `JSON.parse` on character lists: per ECMA-404 the input
may carry leading and trailing whitespace around a single value.  The
input is trimmed first; requiring an empty remainder afterwards is
equivalent to allowing a whitespace-only remainder. -/
def jsonParseChars (l : List Char) : Option Json :=
  match parseCore (2 * (jsTrim l).length + 2) (PIn.val (jsTrim l)) with
  | some (POut.v j []) => some j
  | _ => none

/-- `JSON.parse` on strings. -/
def jsonParse (s : String) : Option Json := jsonParseChars s.data

/-- The job agent's parse step (job-agent.ts line 176):
`JSON.parse(result.text.replace(/```json|```/g, "").trim())`. -/
def parseStepChars (l : List Char) : Option Json :=
  jsonParseChars (jsTrim (replFences l))

/-- The parse step on strings. -/
def parseStep (s : String) : Option Json := parseStepChars s.data

/-- Wrapping a text in triple-backtick code-fence markup, as the
language model is expected to do. -/
def fenceWrap (s : String) : String := "```json\n" ++ s ++ "\n```"

/-! ## Environment and notification senders -/

/-- Environment configuration read from `process.env`.  A variable is
"configured" in the JavaScript sense when it is set and non-empty. -/
structure Env where
  userEmail : Option String
  userPhone : Option String
  nodeEnv : String
  twilioSid : Option String
  twilioToken : Option String
  twilioFrom : Option String
deriving DecidableEq

/-- JS truthiness of an optional environment string: `undefined` and the
empty string are falsy. -/
def truthy : Option String → Bool
  | none => false
  | some s => !(s == "")

/-- An e-mail handed to the nodemailer transport: recipient (the `to`
field of the source, a reserved token here), subject, plain-text body;
the optional html/attachments are derived or absent in every call site
the claims touch. -/
structure EmailMsg where
  toAddr : String
  subject : String
  text : String
deriving DecidableEq

/-- An SMS handed to the Twilio client. -/
structure SmsMsg where
  toAddr : String
  body : String
deriving DecidableEq

/-- Embedding of `sendMail` (src/lib/email.ts lines 15-48).  The
nodemailer transport is abstracted by `providerOk`: `true` when the
external send succeeds, `false` when anything inside the `try` throws.
The function is total and `Bool`-valued — it never propagates an
exception to the caller. -/
def sendMail (env : Env) (_m : EmailMsg) (providerOk : Bool) : Bool :=
  if providerOk then true
  else if env.nodeEnv = "development" then true
  else false

/-- Embedding of `sendSMS` (src/lib/sms.ts lines 8-37).  Returns the
boolean result together with whether the external Twilio call was made.
When any of the three credentials is missing or empty (JS falsiness) the
function returns `false` without any external call, in every environment
mode, including development. -/
def sendSMS (env : Env) (_m : SmsMsg) (providerOk : Bool) : Bool × Bool :=
  if !truthy env.twilioSid || !truthy env.twilioToken || !truthy env.twilioFrom then
    (false, false)
  else if providerOk then (true, true)
  else if env.nodeEnv = "development" then (true, true)
  else (false, true)

/-! ## The data store (prisma/schema.prisma) -/

inductive Role where
  | user
  | admin
  | client
deriving DecidableEq

structure UserRec where
  id : String
  name : String
  bio : Option String
  role : Role
deriving DecidableEq

structure SkillRec where
  userId : String
  name : String
  category : String
  proficiency : Nat
  yearsOfExperience : Nat
deriving DecidableEq

structure ExperienceRec where
  userId : String
  company : String
  position : String
  description : String
  startDate : Nat
  endDate : Option Nat
  achievements : List String
deriving DecidableEq

structure EducationRec where
  userId : String
  institution : String
  degree : String
  fieldOfStudy : String
  startDate : Nat
  endDate : Option Nat
deriving DecidableEq

structure ProjectRec where
  userId : String
  title : String
  description : String
deriving DecidableEq

inductive JobStatus where
  | identified
  | applied
  | interviewScheduled
  | rejected
  | accepted
deriving DecidableEq

/-- A `JobAlert` row.  `confidence` keeps the numeric literal of the
model-supplied score (see `Json.num`). -/
structure JobAlertRec where
  id : Nat
  userId : String
  jobTitle : String
  company : String
  location : String
  description : String
  requirements : List String
  salary : Option String
  applicationUrl : Option String
  confidence : String
  status : JobStatus
deriving DecidableEq

inductive Priority where
  | low
  | medium
  | high
  | urgent
deriving DecidableEq

/-- A `PortfolioReminder` row; `dueDate` is an epoch timestamp in
milliseconds. -/
structure ReminderRec where
  id : Nat
  title : String
  description : String
  dueDate : Nat
  priority : Priority
  completed : Bool
  notificationSent : Bool
deriving DecidableEq

inductive MsgSender where
  | user
  | ai
deriving DecidableEq

structure ChatRec where
  id : Nat
  visitorName : String
  visitorEmail : Option String
deriving DecidableEq

structure ChatMsgRec where
  id : Nat
  content : String
  sender : MsgSender
  chatId : Nat
deriving DecidableEq

/-- The relational store: one list per table used by the claims, plus a
counter supplying fresh primary keys. -/
structure DB where
  users : List UserRec
  skills : List SkillRec
  experiences : List ExperienceRec
  education : List EducationRec
  projects : List ProjectRec
  jobAlerts : List JobAlertRec
  reminders : List ReminderRec
  chats : List ChatRec
  chatMessages : List ChatMsgRec
  nextId : Nat
deriving DecidableEq

/-- Rendering of `Date.prototype.toISOString().split("T")[0]`.  The
civil-calendar text is abstracted to the decimal epoch value — no claim
inspects prompt text, only whether and what calls were made. -/
def isoDay (d : Nat) : String := toString d

/-- Rendering of `Date.prototype.toLocaleDateString()` (locale
dependent), abstracted like `isoDay`. -/
def localeDate (d : Nat) : String := toString d

/-- Rendering of `Date.prototype.getFullYear()`, abstracted like
`isoDay`. -/
def fullYear (d : Nat) : String := toString d

/-! ## The job-search agent (src/server/ai/agents/job-agent.ts) -/

/-- `jobSearchSchema` input. -/
structure JobSearchInput where
  userId : String
  jobTitle : Option String
  location : Option String
  remote : Option Bool

/-- The `JobSearchResult` interface.  `confidenceScore` keeps the JSON
numeric literal. -/
structure JobSearchResult where
  jobTitle : String
  company : String
  location : String
  description : String
  requirements : List String
  salary : Option String
  applicationUrl : Option String
  confidenceScore : String
deriving DecidableEq

/-- The failure taxonomy of §7 of the specification, used as the typed
cause carried by the coarse failure each agent task re-raises. -/
inductive AgentError where
  | insufficientData
  | inference
  | malformedResponse
  | shapeMismatch
  | persistence
  | notFound
deriving DecidableEq

/-- Object-field lookup; on duplicate keys `JSON.parse` keeps the last
occurrence, so the lookup prefers later members. -/
def jfield : List (String × Json) → String → Option Json
  | [], _ => none
  | (k, v) :: rest, key =>
    match jfield rest key with
    | some v2 => some v2
    | none => if k = key then some v else none

def asString : Json → Option String
  | Json.str s => some s
  | _ => none

def asStringArr : Json → Option (List String)
  | Json.arr xs => xs.mapM asString
  | _ => none

def asNumLit : Json → Option String
  | Json.num s => some s
  | _ => none

/-- Reading a parsed array element as the `JobSearchResult` shape the
code casts it to.  The TypeScript performs no validation; an element on
which a required field is missing or mis-typed surfaces as a failed
store write, which this decoder models by failing. -/
def jobOfJson (j : Json) : Option JobSearchResult :=
  match j with
  | Json.obj o => do
    let t ← (jfield o "jobTitle").bind asString
    let c ← (jfield o "company").bind asString
    let loc ← (jfield o "location").bind asString
    let d ← (jfield o "description").bind asString
    let req ← (jfield o "requirements").bind asStringArr
    let conf ← (jfield o "confidenceScore").bind asNumLit
    some ⟨t, c, loc, d, req, (jfield o "salary").bind asString,
      (jfield o "applicationUrl").bind asString, conf⟩
  | _ => none

/-- One line of the skills text sent to the model. -/
def skillsLine (s : SkillRec) : String :=
  s.name ++ " (" ++ s.category ++ ", " ++ toString s.proficiency ++ "%, " ++
    toString s.yearsOfExperience ++ " years)"

/-- One block of the experience text sent to the model. -/
def experienceBlock (e : ExperienceRec) : String :=
  let duration :=
    match e.endDate with
    | some ed => isoDay e.startDate ++ " to " ++ isoDay ed
    | none => isoDay e.startDate ++ " to Present"
  e.position ++ " at " ++ e.company ++ " (" ++ duration ++ ")\n" ++ e.description ++
    "\nAchievements: " ++ String.intercalate ", " e.achievements

/-- The optional search filters appended to the skills variable;
`if (jobTitle)` and `if (location)` are JS truthiness tests, while
`remote` is compared against `undefined` only. -/
def searchFiltersText (inp : JobSearchInput) : String :=
  (match inp.jobTitle with
   | some t => if t == "" then "" else "\nAdditional search criteria:\n- Job Title: " ++ t
   | none => "") ++
  (match inp.location with
   | some loc => if loc == "" then "" else "\n- Location: " ++ loc
   | none => "") ++
  (match inp.remote with
   | some b => "\n- Remote: " ++ (if b then "Yes" else "No")
   | none => "")

/-- The `jobSearchPromptTemplate` with its two variables substituted. -/
def jobSearchPromptText (skills experience : String) : String :=
  "\n  You are an expert job hunting assistant. Based on the user\x27s skills and experience, find relevant job opportunities.\n\n  User Skills:\n  " ++
    skills ++
    "\n\n  User Experience:\n  " ++
    experience ++
    "\n\n  Your task is to generate a list of 5 potential job opportunities that match the user\x27s profile.\n  For each job, provide:\n  - Job title\n  - Company name\n  - Location (can be remote)\n  - Brief job description\n  - Key requirements (as a list)\n  - Estimated salary range (if possible)\n  - Application URL (use a placeholder if unknown)\n  - Confidence score (0-1) indicating how well the job matches the user\x27s profile\n\n  Format the output as a valid JSON array of job objects.\n  "

/-- The `JobAlert` row created for one parsed job; the `status` field is
omitted by the code, so the schema default `IDENTIFIED` applies, and
`location` falls back to "Remote" on a falsy (empty) value. -/
def jobRecFor (uid : String) (id0 : Nat) (job : JobSearchResult) : JobAlertRec :=
  { id := id0
    userId := uid
    jobTitle := job.jobTitle
    company := job.company
    location := if job.location == "" then "Remote" else job.location
    description := job.description
    requirements := job.requirements
    salary := job.salary
    applicationUrl := job.applicationUrl
    confidence := job.confidenceScore
    status := JobStatus.identified }

/-- The rows created by the persistence loop, with consecutive fresh
identifiers. -/
def jobRecsFrom (uid : String) (id0 : Nat) : List JobSearchResult → List JobAlertRec
  | [] => []
  | j :: js => jobRecFor uid id0 j :: jobRecsFrom uid (id0 + 1) js

/-- The per-item persistence loop of `searchJobs` (lines 181-195): each
iteration creates one row; a failing create aborts the remaining writes
but the rows already created stay in the store. -/
def persistJobs (uid : String) : List Json → DB → Except AgentError (List JobSearchResult) × DB
  | [], db => (Except.ok [], db)
  | x :: xs, db =>
    match jobOfJson x with
    | none => (Except.error AgentError.persistence, db)
    | some job =>
      let db1 := { db with
        jobAlerts := db.jobAlerts ++ [jobRecFor uid db.nextId job]
        nextId := db.nextId + 1 }
      match persistJobs uid xs db1 with
      | (Except.ok rest, db2) => (Except.ok (job :: rest), db2)
      | (Except.error e, db2) => (Except.error e, db2)

/-- Everything observable about one `searchJobs` run: the returned value
or failure, the final store, and the traces of external effects. -/
structure JobsOutcome where
  result : Except AgentError (List JobSearchResult)
  db : DB
  llmPrompts : List String
  emails : List EmailMsg
  smss : List SmsMsg

/-- Embedding of `searchJobs` (job-agent.ts lines 105-221).  `llmResult`
supplies the outcome of the single language-model call
(`Except.error` = transport failure); the call is recorded in
`llmPrompts` exactly when the run reaches it.  The notification sends
are best-effort: their boolean results are ignored by the code, so only
the attempted messages are recorded. -/
def searchJobs (inp : JobSearchInput) (db : DB) (env : Env)
    (llmResult : Except Unit String) : JobsOutcome :=
  let userSkills := db.skills.filter (fun s => s.userId == inp.userId)
  let userExperience := db.experiences.filter (fun e => e.userId == inp.userId)
  if userSkills.isEmpty || userExperience.isEmpty then
    ⟨Except.error AgentError.insufficientData, db, [], [], []⟩
  else
    let skillsText := String.intercalate "\n" (userSkills.map skillsLine)
    let experienceText := String.intercalate "\n\n" (userExperience.map experienceBlock)
    let prompt := jobSearchPromptText (skillsText ++ searchFiltersText inp) experienceText
    match llmResult with
    | Except.error _ => ⟨Except.error AgentError.inference, db, [prompt], [], []⟩
    | Except.ok replyText =>
      match parseStep replyText with
      | none => ⟨Except.error AgentError.malformedResponse, db, [prompt], [], []⟩
      | some (Json.arr items) =>
        match persistJobs inp.userId items db with
        | (Except.error e, db2) => ⟨Except.error e, db2, [prompt], [], []⟩
        | (Except.ok jobs, db2) =>
          let emails :=
            if truthy env.userEmail then
              [⟨env.userEmail.getD "",
                "New Job Matches Found: " ++ toString jobs.length ++ " opportunities",
                "The AI agent found " ++ toString jobs.length ++
                  " new job opportunities matching your profile. Log in to your portfolio dashboard to view them."⟩]
            else []
          let smss :=
            if truthy env.userPhone then
              [⟨env.userPhone.getD "",
                "Your portfolio AI found " ++ toString jobs.length ++
                  " new job opportunities matching your skills. Check your dashboard for details."⟩]
            else []
          ⟨Except.ok jobs, db2, [prompt], emails, smss⟩
      | some _ => ⟨Except.error AgentError.shapeMismatch, db, [prompt], [], []⟩

/-! ## The reminder due-check (sendReminderNotifications) -/

/-- Everything observable about one due-check run. -/
structure RemOutcome where
  count : Nat
  db : DB
  emails : List EmailMsg
  smss : List SmsMsg
deriving DecidableEq

/-- The 48-hour lookahead window in milliseconds; the code computes it
with `setHours(getHours() + 48)`, i.e. adds 48 hours. -/
def dueWindowMs : Nat := 48 * 60 * 60 * 1000

/-- The selection predicate of the due-check query: due within the
window (no lower bound — overdue reminders qualify too), incomplete and
not yet notified. -/
def isDue (now : Nat) (r : ReminderRec) : Bool :=
  decide (r.dueDate ≤ now + dueWindowMs) && !r.completed && !r.notificationSent

/-- The reminders selected by the due-check query. -/
def dueFilter (now : Nat) (rs : List ReminderRec) : List ReminderRec :=
  rs.filter (isDue now)

/-- The e-mail sent for one due reminder. -/
def reminderEmail (env : Env) (r : ReminderRec) : EmailMsg :=
  ⟨env.userEmail.getD "", "Portfolio Reminder: " ++ r.title,
    "REMINDER: " ++ r.title ++ " - Due " ++ localeDate r.dueDate ++ ".\n" ++ r.description⟩

def priorityName : Priority → String
  | Priority.low => "LOW"
  | Priority.medium => "MEDIUM"
  | Priority.high => "HIGH"
  | Priority.urgent => "URGENT"

/-- The SMS sent for one due high-priority reminder. -/
def reminderSms (env : Env) (r : ReminderRec) : SmsMsg :=
  ⟨env.userPhone.getD "",
    priorityName r.priority ++ " PRIORITY: " ++ r.title ++ " due on " ++ localeDate r.dueDate⟩

/-- The escalation test: `priority === 'HIGH' || priority === 'URGENT'`. -/
def highPri (r : ReminderRec) : Bool :=
  r.priority == Priority.high || r.priority == Priority.urgent

/-- `prisma.portfolioReminder.update({ where: { id }, ... })`: set the
notified flag on the row with the given id (`id` is `@id`, hence unique
in any reachable store). -/
def markNotified (rid : Nat) (rs : List ReminderRec) : List ReminderRec :=
  rs.map (fun x => if x.id = rid then { x with notificationSent := true } else x)

/-- One iteration of the notification loop (schema.prisma tail, lines
782-810): conditionally e-mail, conditionally SMS for high priority,
mark notified, count. -/
def remStep (env : Env) (acc : RemOutcome) (r : ReminderRec) : RemOutcome :=
  { count := acc.count + 1
    db := { acc.db with reminders := markNotified r.id acc.db.reminders }
    emails := if truthy env.userEmail then acc.emails ++ [reminderEmail env r] else acc.emails
    smss := if truthy env.userPhone && highPri r then acc.smss ++ [reminderSms env r]
      else acc.smss }

/-- Embedding of `sendReminderNotifications` (lines 757-817): select the
due reminders, then loop.  The senders\x27 boolean results are ignored by
the code, so only the attempted messages are recorded. -/
def sendReminderNotifications (db : DB) (env : Env) (now : Nat) : RemOutcome :=
  let dueReminders := dueFilter now db.reminders
  if dueReminders.isEmpty then ⟨0, db, [], []⟩
  else dueReminders.foldl (remStep env) ⟨0, db, [], []⟩

/-! ## The chat agent (processChatMessage) -/

inductive ChatError where
  | notFound
  | inference
deriving DecidableEq

/-- `chatMessageSchema` input (already validated upstream). -/
structure ChatInput where
  content : String
  chatId : Option Nat
  visitorName : Option String
  visitorEmail : Option String

/-- The `ChatResponse` interface. -/
structure ChatResponse where
  content : String
  chatId : Nat
  messageId : Nat
deriving DecidableEq

/-- Everything observable about one `processChatMessage` run. -/
structure ChatOutcome where
  result : Except ChatError ChatResponse
  db : DB
  llmPrompts : List String

/-- Embedding of `portfolioOwnerInfoPrompt`: the system prompt built
from the admin user and their related records on every request. -/
def portfolioOwnerInfoPrompt (db : DB) : String :=
  match db.users.find? (fun u => u.role == Role.admin) with
  | none => "You are a helpful assistant for a portfolio website."
  | some admin =>
    let skills := String.intercalate ", "
      ((db.skills.filter (fun s => s.userId == admin.id)).map (fun s =>
        s.name ++ " (" ++ toString s.proficiency ++ "% proficiency, " ++
          toString s.yearsOfExperience ++ " years)"))
    let education := String.intercalate "; "
      ((db.education.filter (fun e => e.userId == admin.id)).map (fun e =>
        e.degree ++ " in " ++ e.fieldOfStudy ++ " from " ++ e.institution ++ " (" ++
          fullYear e.startDate ++ "-" ++
          (match e.endDate with
           | some d => fullYear d
           | none => "Present") ++ ")"))
    let experience := String.intercalate "; "
      ((db.experiences.filter (fun e => e.userId == admin.id)).map (fun e =>
        e.position ++ " at " ++ e.company ++ " (" ++ fullYear e.startDate ++ "-" ++
          (match e.endDate with
           | some d => fullYear d
           | none => "Present") ++ ")"))
    let projects := String.intercalate "; "
      ((db.projects.filter (fun p => p.userId == admin.id)).map (fun p =>
        p.title ++ ": " ++ p.description))
    "\n  You are an AI assistant representing " ++ admin.name ++
      ", a professional in the tech industry.\n\n  About " ++ admin.name ++ ":\n  " ++
      admin.bio.getD "" ++ "\n\n  Skills: " ++ skills ++ "\n\n  Education: " ++ education ++
      "\n\n  Experience: " ++ experience ++ "\n\n  Notable Projects: " ++ projects ++
      "\n\n  Your role is to engage with visitors to " ++ admin.name ++
      "\x27s portfolio website, answer questions about " ++ admin.name ++
      "\x27s background, skills, experience, and projects.\n  You can also discuss potential collaborations, job opportunities, or freelance work.\n\n  Be professional, friendly, and helpful. If you don\x27t know specific details that weren\x27t provided above,\n  you can suggest the visitor to contact " ++
      admin.name ++
      " directly for more information.\n\n  You should NOT make up information about " ++
      admin.name ++
      " that wasn\x27t provided to you.\n  If asked about something not covered in the information above, politely explain that you don\x27t have that specific information.\n  "

/-- The chat history text: one line per stored message of the session. -/
def formatHistory (msgs : List ChatMsgRec) : String :=
  String.intercalate "\n"
    (msgs.map (fun m =>
      (if m.sender == MsgSender.user then "Visitor" else "Assistant") ++ ": " ++ m.content))

/-- The `chatPromptTemplate` with its three variables substituted. -/
def chatPromptText (systemPrompt chatHistory userMessage : String) : String :=
  "\n  " ++ systemPrompt ++ "\n\n  Chat History:\n  " ++ chatHistory ++ "\n\n  Visitor: " ++
    userMessage ++ "\n\n  Assistant:"

/-- The part of `processChatMessage` after the chat session is resolved:
build the system prompt and history, persist the visitor\x27s message,
then call the model; on success persist the assistant\x27s reply. -/
def processChatCore (inp : ChatInput) (db : DB) (chat : ChatRec)
    (llmResult : Except Unit String) : ChatOutcome :=
  let systemPrompt := portfolioOwnerInfoPrompt db
  let chatHistory := formatHistory (db.chatMessages.filter (fun m => m.chatId == chat.id))
  let userMsg : ChatMsgRec := ⟨db.nextId, inp.content, MsgSender.user, chat.id⟩
  let db1 := { db with chatMessages := db.chatMessages ++ [userMsg], nextId := db.nextId + 1 }
  let prompt := chatPromptText systemPrompt chatHistory inp.content
  match llmResult with
  | Except.error _ => ⟨Except.error ChatError.inference, db1, [prompt]⟩
  | Except.ok text =>
    let aiResponse := String.mk (jsTrim text.data)
    let aiMsg : ChatMsgRec := ⟨db1.nextId, aiResponse, MsgSender.ai, chat.id⟩
    let db2 := { db1 with
      chatMessages := db1.chatMessages ++ [aiMsg]
      nextId := db1.nextId + 1 }
    ⟨Except.ok ⟨aiResponse, chat.id, aiMsg.id⟩, db2, [prompt]⟩

/-- Embedding of `processChatMessage` (chat agent, lines 116-196):
resolve or create the chat session, then run the core; an unknown
`chatId` fails before anything is written. -/
def processChatMessage (inp : ChatInput) (db : DB)
    (llmResult : Except Unit String) : ChatOutcome :=
  match inp.chatId with
  | some cid =>
    match db.chats.find? (fun c => c.id == cid) with
    | none => ⟨Except.error ChatError.notFound, db, []⟩
    | some chat => processChatCore inp db chat llmResult
  | none =>
    let chat : ChatRec := ⟨db.nextId, inp.visitorName.getD "Anonymous", inp.visitorEmail⟩
    let db1 := { db with chats := db.chats ++ [chat], nextId := db.nextId + 1 }
    processChatCore inp db1 chat llmResult

/-! ## Concrete fixtures used by the witness theorems -/

def wUid : String := "u1"

def wSkillA : SkillRec := ⟨wUid, "TypeScript", "FRONTEND", 90, 5⟩

def wSkillB : SkillRec := ⟨wUid, "Lean", "OTHER", 70, 2⟩

def wSkillC : SkillRec := ⟨wUid, "SQL", "DATABASE", 80, 4⟩

def wExpA : ExperienceRec := ⟨wUid, "Acme", "Engineer", "built things", 0, some 1000, ["shipped"]⟩

def wExpB : ExperienceRec := ⟨wUid, "Globex", "Senior Engineer", "led things", 2000, none, []⟩

def wInp : JobSearchInput := ⟨wUid, none, none, none⟩

def wDbJobs : DB := ⟨[], [wSkillA, wSkillB, wSkillC], [wExpA, wExpB], [], [], [], [], [], [], 100⟩

def wDbEmpty : DB := ⟨[], [], [], [], [], [], [], [], [], 0⟩

def wDbSmall : DB := ⟨[], [wSkillA], [wExpA], [], [], [], [], [], [], 5⟩

/-- One job object of the stubbed model reply, as JSON text. -/
def wJobObjText : String :=
  "\x7b\"jobTitle\":\"T\",\"company\":\"C\",\"location\":\"L\",\"description\":\"D\",\"requirements\":[\"R\"],\"confidenceScore\":0.9\x7d"

/-- The stubbed model reply: a 5-element JSON array of job objects. -/
def wReplyC1 : String :=
  "[" ++ wJobObjText ++ "," ++ wJobObjText ++ "," ++ wJobObjText ++ "," ++
    wJobObjText ++ "," ++ wJobObjText ++ "]"

/-- The parsed form of one stubbed job object. -/
def wJobJson : Json :=
  Json.obj [("jobTitle", Json.str "T"), ("company", Json.str "C"),
    ("location", Json.str "L"), ("description", Json.str "D"),
    ("requirements", Json.arr [Json.str "R"]), ("confidenceScore", Json.num "0.9")]

def wItemsC1 : List Json := [wJobJson, wJobJson, wJobJson, wJobJson, wJobJson]

def wEnvFull : Env :=
  ⟨some "owner@example.com", some "15550000", "production", some "sid", some "tok",
    some "15551111"⟩

def wEnvNone : Env := ⟨none, none, "production", none, none, none⟩

def wEnvPhoneOnly : Env := ⟨none, some "15550000", "production", none, none, none⟩

def wEnvDev : Env :=
  ⟨some "owner@example.com", some "15550000", "development", some "sid", some "tok",
    some "15551111"⟩

def wEnvNoSid : Env := ⟨none, none, "development", none, some "tok", some "15551111"⟩

def wEmail : EmailMsg := ⟨"a@b.example", "subject", "text"⟩

def wSms : SmsMsg := ⟨"15552222", "body"⟩

def wRemDue : ReminderRec :=
  ⟨1, "update skills", "refresh the skills section", 1000, Priority.urgent, false, false⟩

def wRemFar : ReminderRec :=
  ⟨2, "later", "a much later task", 999999999999, Priority.low, false, false⟩

def wRemLow : ReminderRec :=
  ⟨3, "low one", "low priority task", 500, Priority.low, false, false⟩

def wDbRem : DB := ⟨[], [], [], [], [], [], [wRemDue, wRemFar], [], [], 4⟩

def wDbC6 : DB := ⟨[], [], [], [], [], [], [wRemDue], [], [], 2⟩

def wDbC6b : DB := ⟨[], [], [], [], [], [], [wRemDue, wRemLow], [], [], 4⟩

def wChatInp : ChatInput := ⟨"hello", none, some "Visitor", none⟩

/-! ## Lemmas about trimming and fence stripping -/

theorem jsTrim_eq_rdrop (l : List Char) :
    jsTrim l = List.rdropWhile isWs (List.dropWhile isWs l) := rfl

theorem jsTrim_idem (l : List Char) : jsTrim (jsTrim l) = jsTrim l := by
  rw [jsTrim_eq_rdrop, jsTrim_eq_rdrop]
  have h1 : List.dropWhile isWs (List.rdropWhile isWs (List.dropWhile isWs l)) =
      List.rdropWhile isWs (List.dropWhile isWs l) := by
    rw [List.dropWhile_eq_self_iff]
    intro hl
    have hpre := List.rdropWhile_prefix isWs (List.dropWhile isWs l)
    have hx0 : 0 < (List.dropWhile isWs l).length :=
      lt_of_lt_of_le hl hpre.length_le
    have hg := List.dropWhile_get_zero_not isWs l hx0
    simp only [List.get_eq_getElem] at hg ⊢
    rw [hpre.getElem hl]
    exact hg
  rw [h1, List.rdropWhile_idempotent]

theorem jsTrim_cons_nl (j : List Char) : jsTrim ('\n' :: (j ++ ['\n'])) = jsTrim j := by
  rw [jsTrim_eq_rdrop, jsTrim_eq_rdrop,
    List.dropWhile_cons_of_pos (by decide : isWs '\n' = true), List.dropWhile_append]
  by_cases h : (List.dropWhile isWs j).isEmpty
  · rw [if_pos h]
    rw [List.isEmpty_iff] at h
    rw [h]
    decide
  · rw [if_neg h]
    exact List.rdropWhile_concat_pos _ _ _ (by decide)

theorem replAux_append_fence (l : List Char) (h : hasTriple l = false) :
    replAux 0 (l ++ ['\n', btick, btick, btick]) = l ++ ['\n'] := by
  induction l with
  | nil => decide
  | cons c l ih =>
    rw [hasTriple] at h
    have hparts := Bool.or_eq_false_iff.mp h
    have h1 : ¬(c = btick ∧ l.take 2 = [btick, btick]) := of_decide_eq_false hparts.1
    have h2 : hasTriple l = false := hparts.2
    have h1' : ¬(c = btick ∧ (l ++ ['\n', btick, btick, btick]).take 2 = [btick, btick]) := by
      intro hc
      apply h1
      refine ⟨hc.1, ?_⟩
      match l, hc.2 with
      | [], htk => exact absurd htk (by decide)
      | [d], htk =>
        exfalso
        have hx : d :: ['\n', btick, btick, btick].take 1 = [btick, btick] := htk
        simp at hx
        exact absurd hx.2 (by decide)
      | d :: e :: l3, htk =>
        rw [List.take_append_of_le_length (by simp)] at htk
        exact htk
    rw [List.cons_append]
    simp only [replAux]
    rw [if_neg h1', ih h2, List.cons_append]

theorem replAux_succ (k : Nat) (x : Char) (rest : List Char) :
    replAux (Nat.succ k) (x :: rest) = replAux k rest := rfl

theorem replFences_fenced (j : List Char) (h : hasTriple j = false) :
    replFences (btick :: btick :: btick :: 'j' :: 's' :: 'o' :: 'n' :: '\n' ::
      (j ++ ['\n', btick, btick, btick])) = '\n' :: (j ++ ['\n']) := by
  rw [replFences]
  conv_lhs => rw [replAux]
  rw [if_pos ⟨rfl, by simp⟩, if_pos (by simp)]
  simp only [replAux_succ]
  conv_lhs => rw [replAux]
  rw [if_neg (fun hc => absurd hc.1 (by decide))]
  rw [replAux_append_fence j h]

theorem jsonParseChars_jsTrim (l : List Char) :
    jsonParseChars (jsTrim l) = jsonParseChars l := by
  unfold jsonParseChars
  rw [jsTrim_idem]

theorem parseStep_fenced (j : String) (h : hasTriple j.data = false) :
    parseStep (fenceWrap j) = jsonParse j := by
  have hdata : ("```json\n" ++ j ++ "\n```").data =
      btick :: btick :: btick :: 'j' :: 's' :: 'o' :: 'n' :: '\n' ::
        (j.data ++ ['\n', btick, btick, btick]) := by
    rw [String.data_append, String.data_append]
    have e1 : ("```json\n").data = [btick, btick, btick, 'j', 's', 'o', 'n', '\n'] := rfl
    have e2 : ("\n```").data = ['\n', btick, btick, btick] := rfl
    rw [e1, e2]
    simp
  rw [parseStep, fenceWrap, parseStepChars, hdata, replFences_fenced j.data h,
    jsTrim_cons_nl, jsonParseChars_jsTrim, jsonParse]

/-! ## Characterisation of the reminder notification loop -/

theorem remFold_db (env : Env) (lst : List ReminderRec) (acc : RemOutcome) :
    (lst.foldl (remStep env) acc).db.reminders =
      acc.db.reminders.map (fun x =>
        if lst.any (fun r => x.id == r.id) then { x with notificationSent := true } else x) := by
  induction lst generalizing acc with
  | nil => simp
  | cons r rs ih =>
    rw [List.foldl_cons, ih]
    show (markNotified r.id acc.db.reminders).map _ = _
    rw [markNotified, List.map_map]
    congr 1
    funext x
    by_cases hx : x.id = r.id
    · simp only [Function.comp_apply, if_pos hx, List.any_cons, hx, beq_self_eq_true,
        Bool.true_or, if_pos]
      split <;> rfl
    · simp only [Function.comp_apply, if_neg hx, List.any_cons]
      have hb : (x.id == r.id) = false := beq_eq_false_iff_ne.mpr hx
      simp only [hb, Bool.false_or]

theorem remFold_count (env : Env) (lst : List ReminderRec) (acc : RemOutcome) :
    (lst.foldl (remStep env) acc).count = acc.count + lst.length := by
  induction lst generalizing acc with
  | nil => simp
  | cons r rs ih =>
    rw [List.foldl_cons, ih]
    show acc.count + 1 + rs.length = _
    rw [List.length_cons]
    omega

theorem remFold_emails (env : Env) (lst : List ReminderRec) (acc : RemOutcome) :
    (lst.foldl (remStep env) acc).emails =
      acc.emails ++ (if truthy env.userEmail then lst.map (reminderEmail env) else []) := by
  induction lst generalizing acc with
  | nil => simp
  | cons r rs ih =>
    rw [List.foldl_cons, ih]
    show (if truthy env.userEmail then acc.emails ++ [reminderEmail env r] else acc.emails) ++ _ = _
    by_cases h : truthy env.userEmail
    · simp [h]
    · simp [h]

theorem remFold_smss (env : Env) (lst : List ReminderRec) (acc : RemOutcome) :
    (lst.foldl (remStep env) acc).smss =
      acc.smss ++ (lst.filter (fun r => truthy env.userPhone && highPri r)).map (reminderSms env) := by
  induction lst generalizing acc with
  | nil => simp
  | cons r rs ih =>
    rw [List.foldl_cons, ih]
    show (if truthy env.userPhone && highPri r then acc.smss ++ [reminderSms env r] else acc.smss) ++ _ = _
    by_cases h : truthy env.userPhone && highPri r
    · simp [h]
    · simp [h]

theorem notified_after_run (db : DB) (env : Env) (now : Nat) :
    ∀ r ∈ dueFilter now db.reminders,
      ∀ x ∈ (sendReminderNotifications db env now).db.reminders,
        x.id = r.id → x.notificationSent = true := by
  intro r hr x hx hid
  have hB : (dueFilter now db.reminders).isEmpty = false :=
    List.isEmpty_eq_false.mpr (List.ne_nil_of_mem hr)
  simp only [sendReminderNotifications, hB, Bool.false_eq_true, if_false] at hx
  rw [remFold_db] at hx
  obtain ⟨y, hy, hxy⟩ := List.mem_map.mp hx
  by_cases hany : (dueFilter now db.reminders).any (fun r2 => y.id == r2.id) = true
  · rw [if_pos hany] at hxy
    rw [← hxy]
  · rw [if_neg hany] at hxy
    exfalso
    apply hany
    refine List.any_eq_true.mpr ⟨r, hr, ?_⟩
    rw [hxy, hid]
    exact beq_self_eq_true r.id

theorem not_reselected (db : DB) (env : Env) (now now2 : Nat) :
    ∀ r ∈ dueFilter now db.reminders,
      ∀ r2 ∈ dueFilter now2 (sendReminderNotifications db env now).db.reminders,
        r2.id ≠ r.id := by
  intro r hr r2 hr2 heq
  have h1 := notified_after_run db env now r hr r2 (List.mem_of_mem_filter hr2) heq
  have h2 := List.of_mem_filter hr2
  rw [isDue] at h2
  simp [h1] at h2

/-! ## Lemmas about the job persistence loop -/

theorem jobRecsFrom_length (uid : String) (i : Nat) (js : List JobSearchResult) :
    (jobRecsFrom uid i js).length = js.length := by
  induction js generalizing i with
  | nil => rfl
  | cons j js ih => simp [jobRecsFrom, ih]

theorem jobRecsFrom_status (uid : String) (i : Nat) (js : List JobSearchResult) :
    ∀ rec ∈ jobRecsFrom uid i js, rec.status = JobStatus.identified := by
  induction js generalizing i with
  | nil => intro rec h; cases h
  | cons j js ih =>
    intro rec h
    rw [jobRecsFrom] at h
    rcases List.mem_cons.mp h with h1 | h1
    · rw [h1]; rfl
    · exact ih (i + 1) rec h1

theorem mapM_jobOfJson_length (items : List Json) (jobs : List JobSearchResult)
    (h : items.mapM jobOfJson = some jobs) : jobs.length = items.length := by
  induction items generalizing jobs with
  | nil =>
    simp only [List.mapM_nil, pure, Option.some.injEq] at h
    rw [← h]
    rfl
  | cons x xs ih =>
    rw [List.mapM_cons] at h
    cases hx : jobOfJson x with
    | none => rw [hx] at h; simp at h
    | some job =>
      rw [hx] at h
      cases hr : xs.mapM jobOfJson with
      | none => rw [hr] at h; simp at h
      | some rest =>
        rw [hr] at h
        simp only [Option.bind_eq_bind, Option.some_bind, Option.pure_def,
          Option.some.injEq] at h
        subst h
        simp [ih rest hr]

theorem mapM_jobOfJson_isSome (items : List Json)
    (h : items.all (fun x => (jobOfJson x).isSome) = true) :
    ∃ jobs, items.mapM jobOfJson = some jobs := by
  induction items with
  | nil => exact ⟨[], rfl⟩
  | cons x xs ih =>
    rw [List.all_cons, Bool.and_eq_true] at h
    obtain ⟨job, hx⟩ := Option.isSome_iff_exists.mp h.1
    obtain ⟨rest, hr⟩ := ih h.2
    exact ⟨job :: rest, by rw [List.mapM_cons, hx, hr]; rfl⟩

theorem persistJobs_all_some (uid : String) (items : List Json) (db : DB)
    (jobs : List JobSearchResult) (h : items.mapM jobOfJson = some jobs) :
    persistJobs uid items db =
      (Except.ok jobs,
        { db with
          jobAlerts := db.jobAlerts ++ jobRecsFrom uid db.nextId jobs
          nextId := db.nextId + jobs.length }) := by
  induction items generalizing db jobs with
  | nil =>
    simp only [List.mapM_nil, pure, Option.some.injEq] at h
    rw [← h]
    simp [persistJobs, jobRecsFrom]
  | cons x xs ih =>
    rw [List.mapM_cons] at h
    cases hx : jobOfJson x with
    | none => rw [hx] at h; simp at h
    | some job =>
      rw [hx] at h
      cases hr : xs.mapM jobOfJson with
      | none => rw [hr] at h; simp at h
      | some rest =>
        rw [hr] at h
        simp only [Option.bind_eq_bind, Option.some_bind, Option.pure_def,
          Option.some.injEq] at h
        subst h
        simp only [persistJobs, hx]
        rw [ih _ rest hr]
        simp only [jobRecsFrom]
        congr 2
        · simp [List.append_assoc]
        · simp [List.length_cons]
          omega

/-! ## The claims -/

/-- Claim C1: for every user having 3 skills and 2 experience records,
if the language model reply parses (after fence stripping) to a
5-element JSON array of job objects, `searchJobs` creates exactly 5 new
job-alert rows, each carrying the schema-default status IDENTIFIED, and
returns the 5 decoded items element for element. -/
theorem searchJobs_five_results (inp : JobSearchInput) (db : DB) (env : Env)
    (reply : String) (items : List Json)
    (hsk : (db.skills.filter (fun s => s.userId == inp.userId)).length = 3)
    (hex : (db.experiences.filter (fun e => e.userId == inp.userId)).length = 2)
    (hparse : parseStep reply = some (Json.arr items))
    (hlen : items.length = 5)
    (hdec : items.all (fun x => (jobOfJson x).isSome) = true) :
    ∃ jobs, items.mapM jobOfJson = some jobs ∧
      (searchJobs inp db env (Except.ok reply)).result = Except.ok jobs ∧
      jobs.length = 5 ∧
      (searchJobs inp db env (Except.ok reply)).db.jobAlerts =
        db.jobAlerts ++ jobRecsFrom inp.userId db.nextId jobs ∧
      (jobRecsFrom inp.userId db.nextId jobs).length = 5 ∧
      ∀ rec ∈ jobRecsFrom inp.userId db.nextId jobs, rec.status = JobStatus.identified := by
  obtain ⟨jobs, hjobs⟩ := mapM_jobOfJson_isSome items hdec
  have hjl : jobs.length = 5 := by rw [mapM_jobOfJson_length items jobs hjobs, hlen]
  have hskE : (db.skills.filter (fun s => s.userId == inp.userId)).isEmpty = false := by
    rw [List.isEmpty_eq_false]
    intro hnil
    rw [hnil] at hsk
    simp at hsk
  have hexE : (db.experiences.filter (fun e => e.userId == inp.userId)).isEmpty = false := by
    rw [List.isEmpty_eq_false]
    intro hnil
    rw [hnil] at hex
    simp at hex
  have hrun := persistJobs_all_some inp.userId items db jobs hjobs
  refine ⟨jobs, hjobs, ?_, hjl, ?_, ?_, ?_⟩
  · simp only [searchJobs, hskE, hexE, Bool.or_self, Bool.false_eq_true, if_false,
      hparse, hrun]
  · simp only [searchJobs, hskE, hexE, Bool.or_self, Bool.false_eq_true, if_false,
      hparse, hrun]
  · rw [jobRecsFrom_length, hjl]
  · exact jobRecsFrom_status inp.userId db.nextId jobs

set_option maxRecDepth 8000 in
/-- Witness for C1: a store with 3 skills and 2 experience rows for the
user and a stubbed 5-element reply. -/
theorem searchJobs_five_results_witness :
    (wDbJobs.skills.filter (fun s => s.userId == wInp.userId)).length = 3 ∧
    (wDbJobs.experiences.filter (fun e => e.userId == wInp.userId)).length = 2 ∧
    parseStep wReplyC1 = some (Json.arr wItemsC1) ∧
    wItemsC1.length = 5 ∧
    wItemsC1.all (fun x => (jobOfJson x).isSome) = true ∧
    (∃ jobs, wItemsC1.mapM jobOfJson = some jobs ∧
      (searchJobs wInp wDbJobs wEnvFull (Except.ok wReplyC1)).result = Except.ok jobs ∧
      jobs.length = 5 ∧
      (searchJobs wInp wDbJobs wEnvFull (Except.ok wReplyC1)).db.jobAlerts =
        wDbJobs.jobAlerts ++ jobRecsFrom wInp.userId wDbJobs.nextId jobs ∧
      (jobRecsFrom wInp.userId wDbJobs.nextId jobs).length = 5 ∧
      ∀ rec ∈ jobRecsFrom wInp.userId wDbJobs.nextId jobs,
        rec.status = JobStatus.identified) :=
  ⟨rfl, rfl, rfl, rfl, rfl,
    searchJobs_five_results wInp wDbJobs wEnvFull wReplyC1 wItemsC1 rfl rfl rfl rfl rfl⟩

/-- Claim C2: for every user with zero skill records and zero experience
records, `searchJobs` fails with InsufficientDataError, makes no
language-model call, and sends nothing. -/
theorem searchJobs_insufficient_data (inp : JobSearchInput) (db : DB) (env : Env)
    (llmResult : Except Unit String)
    (hsk : db.skills.filter (fun s => s.userId == inp.userId) = [])
    (hex : db.experiences.filter (fun e => e.userId == inp.userId) = []) :
    (searchJobs inp db env llmResult).result = Except.error AgentError.insufficientData ∧
    (searchJobs inp db env llmResult).llmPrompts = [] ∧
    (searchJobs inp db env llmResult).emails = [] ∧
    (searchJobs inp db env llmResult).smss = [] ∧
    (searchJobs inp db env llmResult).db = db := by
  simp [searchJobs, hsk, hex]

/-- Witness for C2: the empty store. -/
theorem searchJobs_insufficient_data_witness :
    wDbEmpty.skills.filter (fun s => s.userId == wInp.userId) = [] ∧
    wDbEmpty.experiences.filter (fun e => e.userId == wInp.userId) = [] ∧
    (searchJobs wInp wDbEmpty wEnvFull (Except.ok "ignored")).result =
      Except.error AgentError.insufficientData ∧
    (searchJobs wInp wDbEmpty wEnvFull (Except.ok "ignored")).llmPrompts = [] := by
  have h := searchJobs_insufficient_data wInp wDbEmpty wEnvFull (Except.ok "ignored") rfl rfl
  exact ⟨rfl, rfl, h.1, h.2.1⟩

/-- Claim C3: for every model reply whose text is not parseable as JSON
after fence stripping, `searchJobs` fails with MalformedResponseError
and the store is unchanged (no job-alert row is written). -/
theorem searchJobs_malformed_response (inp : JobSearchInput) (db : DB) (env : Env)
    (reply : String)
    (hsk : db.skills.filter (fun s => s.userId == inp.userId) ≠ [])
    (hex : db.experiences.filter (fun e => e.userId == inp.userId) ≠ [])
    (hparse : parseStep reply = none) :
    (searchJobs inp db env (Except.ok reply)).result =
      Except.error AgentError.malformedResponse ∧
    (searchJobs inp db env (Except.ok reply)).db = db := by
  have hskE := List.isEmpty_eq_false.mpr hsk
  have hexE := List.isEmpty_eq_false.mpr hex
  simp [searchJobs, hskE, hexE, hparse]

/-- Witness for C3: a populated store and the reply "not json". -/
theorem searchJobs_malformed_response_witness :
    wDbSmall.skills.filter (fun s => s.userId == wInp.userId) ≠ [] ∧
    wDbSmall.experiences.filter (fun e => e.userId == wInp.userId) ≠ [] ∧
    parseStep "not json" = none ∧
    (searchJobs wInp wDbSmall wEnvFull (Except.ok "not json")).result =
      Except.error AgentError.malformedResponse ∧
    (searchJobs wInp wDbSmall wEnvFull (Except.ok "not json")).db = wDbSmall := by
  have h := searchJobs_malformed_response wInp wDbSmall wEnvFull "not json"
    (by decide) (by decide) rfl
  exact ⟨by decide, by decide, rfl, h.1, h.2⟩

/-- Claim C4, counterexample: the fence-stripping replace is global, so
a well-formed JSON text containing three backticks inside a string
literal parses differently after fence wrapping — the claim fails as
stated. -/
theorem parseStep_fence_counterexample :
    jsonParse "\"```\"" = some (Json.str "```") ∧
    parseStep (fenceWrap "\"```\"") = some (Json.str "") ∧
    (some (Json.str "") : Option Json) ≠ some (Json.str "```") := by
  refine ⟨rfl, rfl, ?_⟩
  intro hcontra
  injection hcontra with h1
  injection h1 with h2
  exact absurd h2 (by decide)

/-- Claim C4 as amended: for every well-formed JSON text `j` that does
not itself contain a triple-backtick run, parsing the fence-wrapped
reply yields the same value as parsing `j` directly. -/
theorem parseStep_fenceWrap_amended (j : String) (v : Json)
    (hwf : jsonParse j = some v) (h : hasTriple j.data = false) :
    parseStep (fenceWrap j) = some v := by
  rw [parseStep_fenced j h, hwf]

/-- Witness for the amended C4 at the concrete text "[1, 2]". -/
theorem parseStep_fenceWrap_amended_witness :
    jsonParse "[1, 2]" = some (Json.arr [Json.num "1", Json.num "2"]) ∧
    hasTriple ("[1, 2]").data = false ∧
    parseStep (fenceWrap "[1, 2]") = some (Json.arr [Json.num "1", Json.num "2"]) :=
  ⟨rfl, rfl,
    parseStep_fenceWrap_amended "[1, 2]" (Json.arr [Json.num "1", Json.num "2"]) rfl rfl⟩

/-- Claim C5: running the due-check twice in immediate succession sends
at most one notification per reminder — every reminder selected by the
first run carries `notificationSent = true` afterwards and no reminder
with its id is selected by the second run.  The id-uniqueness hypothesis
is the store invariant of the `@id` column. -/
theorem sendReminderNotifications_idempotent (db : DB) (env : Env) (now now2 : Nat)
    (hids : (db.reminders.map (fun r => r.id)).Nodup) :
    ∀ r ∈ dueFilter now db.reminders,
      (∀ x ∈ (sendReminderNotifications db env now).db.reminders,
        x.id = r.id → x.notificationSent = true) ∧
      ∀ r2 ∈ dueFilter now2 (sendReminderNotifications db env now).db.reminders,
        r2.id ≠ r.id := by
  intro r hr
  exact ⟨fun x hx hid => notified_after_run db env now r hr x hx hid,
    fun r2 hr2 => not_reselected db env now now2 r hr r2 hr2⟩

/-- Witness for C5: a two-reminder store, one due now. -/
theorem sendReminderNotifications_idempotent_witness :
    (wDbRem.reminders.map (fun r => r.id)).Nodup ∧
    ∀ r ∈ dueFilter 0 wDbRem.reminders,
      (∀ x ∈ (sendReminderNotifications wDbRem wEnvFull 0).db.reminders,
        x.id = r.id → x.notificationSent = true) ∧
      ∀ r2 ∈ dueFilter 1000 (sendReminderNotifications wDbRem wEnvFull 0).db.reminders,
        r2.id ≠ r.id :=
  ⟨by decide, sendReminderNotifications_idempotent wDbRem wEnvFull 0 1000 (by decide)⟩

/-- Claim C6, counterexample: an urgent reminder due within 48 hours
with the owner phone configured but no owner e-mail gets an SMS and no
e-mail, so "sends both an email and an SMS" fails as stated — the
e-mail additionally requires the owner e-mail to be configured. -/
theorem reminder_escalation_counterexample :
    wRemDue.priority = Priority.urgent ∧ wRemDue.completed = false ∧
    wRemDue.notificationSent = false ∧ wRemDue.dueDate ≤ 0 + dueWindowMs ∧
    truthy wEnvPhoneOnly.userPhone = true ∧
    (sendReminderNotifications wDbC6 wEnvPhoneOnly 0).smss =
      [reminderSms wEnvPhoneOnly wRemDue] ∧
    (sendReminderNotifications wDbC6 wEnvPhoneOnly 0).emails = [] := by
  decide

/-- Claim C6 as amended: with the owner e-mail AND phone configured,
every incomplete, not-yet-notified reminder due within 48 hours gets
exactly one e-mail; a HIGH or URGENT one additionally gets an SMS; a
LOW one gets no SMS (one notification per reminder, no batching: the
traces are exactly the per-reminder messages of the selection). -/
theorem reminder_escalation_amended (db : DB) (env : Env) (now : Nat)
    (hem : truthy env.userEmail = true) (hph : truthy env.userPhone = true) :
    (sendReminderNotifications db env now).emails =
      (dueFilter now db.reminders).map (reminderEmail env) ∧
    (sendReminderNotifications db env now).smss =
      ((dueFilter now db.reminders).filter highPri).map (reminderSms env) ∧
    ∀ r ∈ db.reminders, r.completed = false → r.notificationSent = false →
      r.dueDate ≤ now + dueWindowMs →
      reminderEmail env r ∈ (sendReminderNotifications db env now).emails ∧
      ((r.priority = Priority.high ∨ r.priority = Priority.urgent) →
        reminderSms env r ∈ (sendReminderNotifications db env now).smss) ∧
      (r.priority = Priority.low → r ∉ (dueFilter now db.reminders).filter highPri) := by
  have hemails : (sendReminderNotifications db env now).emails =
      (dueFilter now db.reminders).map (reminderEmail env) := by
    by_cases hdue : dueFilter now db.reminders = []
    · simp [sendReminderNotifications, hdue]
    · have hB : (dueFilter now db.reminders).isEmpty = false := List.isEmpty_eq_false.mpr hdue
      simp only [sendReminderNotifications, hB, Bool.false_eq_true, if_false]
      rw [remFold_emails, hem]
      simp
  have hsmss : (sendReminderNotifications db env now).smss =
      ((dueFilter now db.reminders).filter highPri).map (reminderSms env) := by
    by_cases hdue : dueFilter now db.reminders = []
    · simp [sendReminderNotifications, hdue]
    · have hB : (dueFilter now db.reminders).isEmpty = false := List.isEmpty_eq_false.mpr hdue
      simp only [sendReminderNotifications, hB, Bool.false_eq_true, if_false]
      rw [remFold_smss]
      have hfn : (fun r => truthy env.userPhone && highPri r) = highPri := by
        funext r
        rw [hph, Bool.true_and]
      rw [hfn]
      simp
  refine ⟨hemails, hsmss, ?_⟩
  intro r hr hc hn hd
  have hrdue : r ∈ dueFilter now db.reminders := by
    refine List.mem_filter.mpr ⟨hr, ?_⟩
    rw [isDue, hc, hn]
    simp [hd]
  refine ⟨?_, ?_, ?_⟩
  · rw [hemails]
    exact List.mem_map_of_mem _ hrdue
  · intro hpri
    rw [hsmss]
    refine List.mem_map_of_mem _ (List.mem_filter.mpr ⟨hrdue, ?_⟩)
    rcases hpri with h | h <;> rw [highPri, h] <;> rfl
  · intro hlow hmem
    have hhp := List.of_mem_filter hmem
    rw [highPri, hlow] at hhp
    exact absurd hhp (by decide)

/-- Witness for the amended C6: an urgent and a low reminder, both
contacts configured. -/
theorem reminder_escalation_amended_witness :
    truthy wEnvFull.userEmail = true ∧ truthy wEnvFull.userPhone = true ∧
    ((sendReminderNotifications wDbC6b wEnvFull 0).emails =
      (dueFilter 0 wDbC6b.reminders).map (reminderEmail wEnvFull) ∧
    (sendReminderNotifications wDbC6b wEnvFull 0).smss =
      ((dueFilter 0 wDbC6b.reminders).filter highPri).map (reminderSms wEnvFull) ∧
    ∀ r ∈ wDbC6b.reminders, r.completed = false → r.notificationSent = false →
      r.dueDate ≤ 0 + dueWindowMs →
      reminderEmail wEnvFull r ∈ (sendReminderNotifications wDbC6b wEnvFull 0).emails ∧
      ((r.priority = Priority.high ∨ r.priority = Priority.urgent) →
        reminderSms wEnvFull r ∈ (sendReminderNotifications wDbC6b wEnvFull 0).smss) ∧
      (r.priority = Priority.low → r ∉ (dueFilter 0 wDbC6b.reminders).filter highPri)) :=
  ⟨rfl, rfl, reminder_escalation_amended wDbC6b wEnvFull 0 rfl rfl⟩

/-- Claim C7: `sendMail` and `sendSMS` always return a boolean (they are
total, never throwing to the caller), and in development mode a failing
provider call makes both report success — for `sendSMS` this presumes
the credentials are present, since the provider call only happens then. -/
theorem senders_bool_dev_success (env : Env) (e : EmailMsg) (s : SmsMsg)
    (hdev : env.nodeEnv = "development")
    (hsid : truthy env.twilioSid = true) (htok : truthy env.twilioToken = true)
    (hfrom : truthy env.twilioFrom = true) :
    (∀ ok, sendMail env e ok = true ∨ sendMail env e ok = false) ∧
    (∀ ok, (sendSMS env s ok).1 = true ∨ (sendSMS env s ok).1 = false) ∧
    sendMail env e false = true ∧
    (sendSMS env s false).1 = true := by
  refine ⟨fun ok => ?_, fun ok => ?_, ?_, ?_⟩
  · exact Bool.eq_false_or_eq_true _
  · exact Bool.eq_false_or_eq_true _
  · simp [sendMail, hdev]
  · simp [sendSMS, hsid, htok, hfrom, hdev]

/-- Witness for C7: a development environment with full credentials and
a throwing provider. -/
theorem senders_bool_dev_success_witness :
    wEnvDev.nodeEnv = "development" ∧
    truthy wEnvDev.twilioSid = true ∧ truthy wEnvDev.twilioToken = true ∧
    truthy wEnvDev.twilioFrom = true ∧
    sendMail wEnvDev wEmail false = true ∧ (sendSMS wEnvDev wSms false).1 = true := by
  have h := senders_bool_dev_success wEnvDev wEmail wSms rfl rfl rfl rfl
  exact ⟨rfl, rfl, rfl, rfl, h.2.2.1, h.2.2.2⟩

/-- Claim C8: with any Twilio credential absent (or empty), `sendSMS`
makes no external call and reports failure, in every environment mode
including development. -/
theorem sendSMS_missing_credentials (env : Env) (s : SmsMsg) (ok : Bool)
    (h : truthy env.twilioSid = false ∨ truthy env.twilioToken = false ∨
      truthy env.twilioFrom = false) :
    sendSMS env s ok = (false, false) := by
  rcases h with h | h | h <;> simp [sendSMS, h]

/-- Witness for C8: development mode, missing account SID. -/
theorem sendSMS_missing_credentials_witness :
    truthy wEnvNoSid.twilioSid = false ∧
    wEnvNoSid.nodeEnv = "development" ∧
    sendSMS wEnvNoSid wSms true = (false, false) :=
  ⟨rfl, rfl, sendSMS_missing_credentials wEnvNoSid wSms true (Or.inl rfl)⟩

/-- Claim C9: with neither owner contact configured, the due-check still
flags every selected reminder as notified and counts it, so the returned
count is positive while no message was dispatched, and those reminders
are never re-selected by a later scan. -/
theorem sendReminderNotifications_no_contact (db : DB) (env : Env) (now : Nat)
    (hem : truthy env.userEmail = false) (hph : truthy env.userPhone = false)
    (hne : dueFilter now db.reminders ≠ []) :
    (sendReminderNotifications db env now).count = (dueFilter now db.reminders).length ∧
    0 < (sendReminderNotifications db env now).count ∧
    (sendReminderNotifications db env now).emails = [] ∧
    (sendReminderNotifications db env now).smss = [] ∧
    (∀ r ∈ dueFilter now db.reminders,
      ∀ x ∈ (sendReminderNotifications db env now).db.reminders,
        x.id = r.id → x.notificationSent = true) ∧
    ∀ now2, ∀ r ∈ dueFilter now db.reminders,
      ∀ r2 ∈ dueFilter now2 (sendReminderNotifications db env now).db.reminders,
        r2.id ≠ r.id := by
  have hB : (dueFilter now db.reminders).isEmpty = false := List.isEmpty_eq_false.mpr hne
  refine ⟨?_, ?_, ?_, ?_, ?_, ?_⟩
  · simp only [sendReminderNotifications, hB, Bool.false_eq_true, if_false]
    rw [remFold_count]
    simp
  · simp only [sendReminderNotifications, hB, Bool.false_eq_true, if_false]
    rw [remFold_count]
    have := List.length_pos.mpr hne
    show 0 < 0 + _
    omega
  · simp only [sendReminderNotifications, hB, Bool.false_eq_true, if_false]
    rw [remFold_emails, hem]
    simp
  · simp only [sendReminderNotifications, hB, Bool.false_eq_true, if_false]
    rw [remFold_smss, hph]
    simp
  · exact fun r hr x hx hid => notified_after_run db env now r hr x hx hid
  · exact fun now2 r hr r2 hr2 => not_reselected db env now now2 r hr r2 hr2

/-- Witness for C9: a due reminder, no contacts configured. -/
theorem sendReminderNotifications_no_contact_witness :
    truthy wEnvNone.userEmail = false ∧ truthy wEnvNone.userPhone = false ∧
    dueFilter 0 wDbRem.reminders ≠ [] ∧
    (sendReminderNotifications wDbRem wEnvNone 0).count =
      (dueFilter 0 wDbRem.reminders).length ∧
    (sendReminderNotifications wDbRem wEnvNone 0).emails = [] ∧
    (sendReminderNotifications wDbRem wEnvNone 0).smss = [] := by
  have h := sendReminderNotifications_no_contact wDbRem wEnvNone 0 rfl rfl (by decide)
  exact ⟨rfl, rfl, by decide, h.1, h.2.2.1, h.2.2.2.1⟩

/-- Claim C10: `processChatMessage` persists the visitor message before
the language-model call, so when that call fails the run fails but the
visitor message has been written and remains in the store (the task is
not atomic). -/
theorem processChatMessage_persists_before_llm (inp : ChatInput) (db : DB)
    (h : inp.chatId = none ∨
      ∃ cid chat, inp.chatId = some cid ∧ db.chats.find? (fun c => c.id == cid) = some chat) :
    (processChatMessage inp db (Except.error ())).result = Except.error ChatError.inference ∧
    (processChatMessage inp db (Except.error ())).llmPrompts ≠ [] ∧
    ∃ m, (processChatMessage inp db (Except.error ())).db.chatMessages =
        db.chatMessages ++ [m] ∧
      m.content = inp.content ∧ m.sender = MsgSender.user := by
  rcases h with h | ⟨cid, chat, hcid, hfind⟩
  · simp only [processChatMessage, h]
    exact ⟨rfl, by simp [processChatCore],
      ⟨⟨db.nextId + 1, inp.content, MsgSender.user, db.nextId⟩, rfl, rfl, rfl⟩⟩
  · simp only [processChatMessage, hcid, hfind]
    exact ⟨rfl, by simp [processChatCore],
      ⟨⟨db.nextId, inp.content, MsgSender.user, chat.id⟩, rfl, rfl, rfl⟩⟩

/-- Witness for C10: a fresh chat (no chatId) on the empty store with a
failing model call. -/
theorem processChatMessage_persists_before_llm_witness :
    wChatInp.chatId = none ∧
    ((processChatMessage wChatInp wDbEmpty (Except.error ())).result =
      Except.error ChatError.inference ∧
    (processChatMessage wChatInp wDbEmpty (Except.error ())).llmPrompts ≠ [] ∧
    ∃ m, (processChatMessage wChatInp wDbEmpty (Except.error ())).db.chatMessages =
        wDbEmpty.chatMessages ++ [m] ∧
      m.content = wChatInp.content ∧ m.sender = MsgSender.user) :=
  ⟨rfl, processChatMessage_persists_before_llm wChatInp wDbEmpty (Or.inl rfl)⟩

end Portfolio
